import Mathlib

/-!
Shallow embedding (in real arithmetic) of the CMS decompounded-option
static-replication pricing engine of `decompounded_options_eko.ipynb`.

External collaborators of the core (the bootstrapped discount curve, the
interpolated SABR parameter surface, the Gaussian CDF of the numeric
library, and the adaptive quadrature routine) are modelled as parameters:
a `MarketEnv` bundle of lookup functions, a cumulative-distribution
function `normCdf`, and integrator functionals `quad` (finite interval)
and `quad_inf` (interval unbounded above).  All repository functions are
translated verbatim from the notebook source, with Python local variables
inlined.
-/

open Filter Set

/-- The market data consumed by the pricers: the discount-factor /
forward-LIBOR curve columns of `df_discount_factors`, and the four
externally interpolated SABR-parameter surfaces. -/
structure MarketEnv where
  fwd_libor : ℝ → ℝ
  df_ois : ℝ → ℝ
  sabr_alpha_interp : ℝ → ℝ → ℝ
  sabr_beta_interp : ℝ → ℝ → ℝ
  sabr_rho_interp : ℝ → ℝ → ℝ
  sabr_nu_interp : ℝ → ℝ → ℝ

/-- `compute_forward_swap_rate` from the notebook: annuity-weighted forward
swap rate.  `np.arange(expiry + p, swap_end + p, p)` is modelled as the
`⌈tenor / p⌉` real points `expiry + p * (i + 1)`. -/
noncomputable def compute_forward_swap_rate (expiry tenor : ℝ) (env : MarketEnv)
    (floating_leg_period fixed_leg_period : ℝ) : ℝ :=
  (∑ i ∈ Finset.range ⌈tenor / floating_leg_period⌉₊,
      floating_leg_period * env.fwd_libor (expiry + floating_leg_period * ((i : ℝ) + 1))
        * env.df_ois (expiry + floating_leg_period * ((i : ℝ) + 1)))
    / ∑ i ∈ Finset.range ⌈tenor / fixed_leg_period⌉₊,
        fixed_leg_period * env.df_ois (expiry + fixed_leg_period * ((i : ℝ) + 1))

/-- `AbstractBlack76Model._calculate_d1`. -/
noncomputable def calculate_d1 (F K sigma T : ℝ) : ℝ :=
  (Real.log (F / K) + sigma ^ 2 / 2 * T) / (sigma * Real.sqrt T)

/-- `AbstractBlack76Model._calculate_d2`. -/
noncomputable def calculate_d2 (F K sigma T : ℝ) : ℝ :=
  calculate_d1 F K sigma T - sigma * Real.sqrt T

/-- `VanillaBlack76Model.calculate_call_price`, with `norm.cdf` abstracted
as `normCdf`. -/
noncomputable def calculate_call_price (normCdf : ℝ → ℝ)
    (F K discount_factor sigma T : ℝ) : ℝ :=
  discount_factor *
    (F * normCdf (calculate_d1 F K sigma T) - K * normCdf (calculate_d2 F K sigma T))

/-- `VanillaBlack76Model.calculate_put_price`, with `norm.cdf` abstracted
as `normCdf`. -/
noncomputable def calculate_put_price (normCdf : ℝ → ℝ)
    (F K discount_factor sigma T : ℝ) : ℝ :=
  discount_factor *
    ((-F) * normCdf (-(calculate_d1 F K sigma T)) + K * normCdf (-(calculate_d2 F K sigma T)))

/-- `IRR_0(K, m, N) = 1/K * (1 - 1/(1 + K/m)^(m N))`. -/
noncomputable def IRR_0 (K m N : ℝ) : ℝ :=
  1 / K * (1 - 1 / (1 + K / m) ^ (m * N))

/-- `IRR_1`, expressed through `IRR_0` exactly as in the source. -/
noncomputable def IRR_1 (K m N : ℝ) : ℝ :=
  (-1) / K * IRR_0 K m N + 1 / (K * m) * N * m / (1 + K / m) ^ (N * m + 1)

/-- `IRR_2`, expressed through `IRR_1` exactly as in the source. -/
noncomputable def IRR_2 (K m N : ℝ) : ℝ :=
  (-2) / K * IRR_1 K m N
    - 1 / (K * m * m) * (N * m) * (N * m + 1) / (1 + K / m) ^ (N * m + 2)

/-- `irr_settled_option_price`: annuity factor at the forward `F`, a
Black-76 price computed with `discount_factor_numeraire = 1`, rescaled by
the external discount factor and the annuity. -/
noncomputable def irr_settled_option_price (normCdf : ℝ → ℝ)
    (discount_factor F K sigma T m N : ℝ) (swaption_type : String) : ℝ :=
  discount_factor * IRR_0 F m N *
    (if swaption_type = "receiver" then calculate_put_price normCdf F K 1 sigma T
     else calculate_call_price normCdf F K 1 sigma T)

/-- The local variable `z` of `SABR_model`'s general branch. -/
noncomputable def SABR_z (F K alpha beta nu : ℝ) : ℝ :=
  (nu / alpha) * (F * K) ^ (0.5 * (1 - beta)) * Real.log (F / K)

/-- The local variable `zhi` of `SABR_model`'s general branch. -/
noncomputable def SABR_chi (z rho : ℝ) : ℝ :=
  Real.log (((1 - 2 * rho * z + z * z) ^ ((0.5 : ℝ)) + z - rho) / (1 - rho))

/-- `SABR_model`: Hagan's asymptotic implied-volatility expansion, with the
closed-form at-the-money branch taken when `|F - K| < 1e-12`. -/
noncomputable def SABR_model (F K T alpha beta rho nu : ℝ) : ℝ :=
  if |F - K| < 1e-12 then
    alpha * (1 + ((((1 - beta) ^ 2) / 24) * alpha * alpha / F ^ (2 - 2 * beta)
      + 0.25 * rho * beta * nu * alpha / F ^ (1 - beta)
      + ((2 - 3 * rho * rho) / 24) * nu * nu) * T) / F ^ (1 - beta)
  else
    alpha * (1 + ((((1 - beta) ^ 2) / 24) * ((alpha * alpha) / (F * K) ^ (1 - beta))
      + 0.25 * rho * beta * nu * alpha / (F * K) ^ ((1 - beta) / 2)
      + ((2 - 3 * rho * rho) / 24) * nu * nu) * T) * SABR_z F K alpha beta nu
    / ((F * K) ^ ((1 - beta) / 2)
      * (1 + ((1 - beta) ^ 2 / 24) * Real.log (F / K) ^ 2
        + (((1 - beta) ^ 4) / 1920) * Real.log (F / K) ^ 4)
      * SABR_chi (SABR_z F K alpha beta nu) rho)

/-- `g_0(K) = K^(1/4) - 0.04^(1/2)` (payoff value, `p = 4`, `q = 2`). -/
noncomputable def g_0 (K : ℝ) : ℝ :=
  K ^ ((1 : ℝ) / 4) - (0.04 : ℝ) ^ ((1 : ℝ) / 2)

/-- `g_1(K)`: first derivative formula of the payoff, as implemented. -/
noncomputable def g_1 (K : ℝ) : ℝ :=
  (1 / 4) * K ^ ((1 : ℝ) / 4 - 1)

/-- `g_2(K)`: second derivative formula of the payoff, as implemented. -/
noncomputable def g_2 (K : ℝ) : ℝ :=
  (1 / 4) * ((1 : ℝ) / 4 - 1) * K ^ ((1 : ℝ) / 4 - 2)

/-- `h_0(K, m, N) = g_0(K) / IRR_0(K, m, N)`. -/
noncomputable def h_0 (K m N : ℝ) : ℝ := g_0 K / IRR_0 K m N

/-- `h_1(K, m, N)`: quotient-rule first derivative of `h_0`. -/
noncomputable def h_1 (K m N : ℝ) : ℝ :=
  (IRR_0 K m N * g_1 K - g_0 K * IRR_1 K m N) / IRR_0 K m N ^ 2

/-- `h_2(K, m, N)`: quotient-rule second derivative of `h_0`. -/
noncomputable def h_2 (K m N : ℝ) : ℝ :=
  (IRR_0 K m N * g_2 K - IRR_2 K m N * g_0 K - 2 * IRR_1 K m N * g_1 K)
      / IRR_0 K m N ^ 2
    + 2 * IRR_1 K m N ^ 2 * g_0 K / IRR_0 K m N ^ 3

/-- The `h_2` combination with the payoff triple `(g0, g1, g2)` made a
parameter; `h_2` is exactly this combination applied to `(g_0, g_1, g_2)`. -/
noncomputable def h_2_with (g0 g1 g2 : ℝ → ℝ) (K m N : ℝ) : ℝ :=
  (IRR_0 K m N * g2 K - IRR_2 K m N * g0 K - 2 * IRR_1 K m N * g1 K)
      / IRR_0 K m N ^ 2
    + 2 * IRR_1 K m N ^ 2 * g0 K / IRR_0 K m N ^ 3

lemma h_2_eq_h_2_with (K m N : ℝ) : h_2 K m N = h_2_with g_0 g_1 g_2 K m N := rfl

/-- `compute_options_payoff_1`: unrestricted-payoff pricer.  `quad f a b`
stands for `scipy.integrate.quad(f, a, b)[0]` and `quad_inf f a` for
`quad(f, a, inf)[0]`.  The Python locals `F`, `alpha`, `beta`, `rho`, `nu`
are inlined; `second_term = 0` is kept. -/
noncomputable def compute_options_payoff_1
    (quad : (ℝ → ℝ) → ℝ → ℝ → ℝ) (quad_inf : (ℝ → ℝ) → ℝ → ℝ)
    (normCdf : ℝ → ℝ) (env : MarketEnv)
    (expiry tenor payment_period discount_factor : ℝ) : ℝ :=
  discount_factor * g_0 (compute_forward_swap_rate expiry tenor env payment_period payment_period)
    + 0
    + quad (fun x => h_2 x (1 / payment_period) tenor
        * irr_settled_option_price normCdf
            discount_factor
            (compute_forward_swap_rate expiry tenor env payment_period payment_period)
            x
            (SABR_model (compute_forward_swap_rate expiry tenor env payment_period payment_period)
              x expiry (env.sabr_alpha_interp expiry tenor) (env.sabr_beta_interp expiry tenor)
              (env.sabr_rho_interp expiry tenor) (env.sabr_nu_interp expiry tenor))
            expiry (1 / payment_period) tenor "receiver")
        1e-6 (compute_forward_swap_rate expiry tenor env payment_period payment_period)
    + quad_inf (fun x => h_2 x (1 / payment_period) tenor
        * irr_settled_option_price normCdf
            discount_factor
            (compute_forward_swap_rate expiry tenor env payment_period payment_period)
            x
            (SABR_model (compute_forward_swap_rate expiry tenor env payment_period payment_period)
              x expiry (env.sabr_alpha_interp expiry tenor) (env.sabr_beta_interp expiry tenor)
              (env.sabr_rho_interp expiry tenor) (env.sabr_nu_interp expiry tenor))
            expiry (1 / payment_period) tenor "payer")
        (compute_forward_swap_rate expiry tenor env payment_period payment_period)

/-- `compute_options_payoff_2`: floored-payoff pricer, translated verbatim
from the source.  Note that the `quad` call of `second_term` starts at the
forward `F` (the Python code passes `F`, not `L`, as the lower limit). -/
noncomputable def compute_options_payoff_2
    (quad_inf : (ℝ → ℝ) → ℝ → ℝ) (normCdf : ℝ → ℝ) (env : MarketEnv)
    (L expiry tenor payment_period discount_factor : ℝ) : ℝ :=
  irr_settled_option_price normCdf
      discount_factor
      (compute_forward_swap_rate expiry tenor env payment_period payment_period)
      L
      (SABR_model (compute_forward_swap_rate expiry tenor env payment_period payment_period)
        L expiry (env.sabr_alpha_interp expiry tenor) (env.sabr_beta_interp expiry tenor)
        (env.sabr_rho_interp expiry tenor) (env.sabr_nu_interp expiry tenor))
      expiry (1 / payment_period) tenor "payer"
    * h_1 L (1 / payment_period) tenor
    + quad_inf (fun x => h_2 x (1 / payment_period) tenor
        * irr_settled_option_price normCdf
            discount_factor
            (compute_forward_swap_rate expiry tenor env payment_period payment_period)
            x
            (SABR_model (compute_forward_swap_rate expiry tenor env payment_period payment_period)
              x expiry (env.sabr_alpha_interp expiry tenor) (env.sabr_beta_interp expiry tenor)
              (env.sabr_rho_interp expiry tenor) (env.sabr_nu_interp expiry tenor))
            expiry (1 / payment_period) tenor "payer")
        (compute_forward_swap_rate expiry tenor env payment_period payment_period)

/-- The floored-payoff pricer as the spec states it:
`PV = h1(L)·annuitySettledPrice(..., L, ..., payer) +
∫[L, ∞] h2(x)·annuitySettledPrice(..., x, ..., payer) dx` — the
integration interval starts at the floor strike `L` itself. -/
noncomputable def compute_options_payoff_2_spec
    (quad_inf : (ℝ → ℝ) → ℝ → ℝ) (normCdf : ℝ → ℝ) (env : MarketEnv)
    (L expiry tenor payment_period discount_factor : ℝ) : ℝ :=
  h_1 L (1 / payment_period) tenor
    * irr_settled_option_price normCdf
        discount_factor
        (compute_forward_swap_rate expiry tenor env payment_period payment_period)
        L
        (SABR_model (compute_forward_swap_rate expiry tenor env payment_period payment_period)
          L expiry (env.sabr_alpha_interp expiry tenor) (env.sabr_beta_interp expiry tenor)
          (env.sabr_rho_interp expiry tenor) (env.sabr_nu_interp expiry tenor))
        expiry (1 / payment_period) tenor "payer"
    + quad_inf (fun x => h_2 x (1 / payment_period) tenor
        * irr_settled_option_price normCdf
            discount_factor
            (compute_forward_swap_rate expiry tenor env payment_period payment_period)
            x
            (SABR_model (compute_forward_swap_rate expiry tenor env payment_period payment_period)
              x expiry (env.sabr_alpha_interp expiry tenor) (env.sabr_beta_interp expiry tenor)
              (env.sabr_rho_interp expiry tenor) (env.sabr_nu_interp expiry tenor))
            expiry (1 / payment_period) tenor "payer")
        L

/-- A flat test curve (forward LIBOR 5%, discount factor 1, constant SABR
parameters) used to evaluate the pricers at a concrete market point. -/
noncomputable def flatEnv : MarketEnv where
  fwd_libor := fun _ => 0.05
  df_ois := fun _ => 1
  sabr_alpha_interp := fun _ _ => 0.3
  sabr_beta_interp := fun _ _ => 0.5
  sabr_rho_interp := fun _ _ => 0
  sabr_nu_interp := fun _ _ => 0.4

lemma flat_forward_swap_rate :
    compute_forward_swap_rate 5 10 flatEnv 10 10 = 0.05 := by
  unfold compute_forward_swap_rate
  rw [show (10 : ℝ) / 10 = ((1 : ℕ) : ℝ) by norm_num, Nat.ceil_natCast]
  simp [flatEnv]

lemma IRR_0_one_eval : IRR_0 1 1 1 = 1 / 2 := by
  unfold IRR_0
  rw [show (1 : ℝ) * 1 = ((1 : ℕ) : ℝ) by norm_num, Real.rpow_natCast]
  norm_num

lemma IRR_1_one_eval : IRR_1 1 1 1 = -(1 / 4) := by
  unfold IRR_1
  rw [IRR_0_one_eval, show (1 : ℝ) * 1 + 1 = ((2 : ℕ) : ℝ) by norm_num, Real.rpow_natCast]
  norm_num

lemma IRR_2_one_eval : IRR_2 1 1 1 = 1 / 4 := by
  unfold IRR_2
  rw [IRR_1_one_eval, show (1 : ℝ) * 1 + 2 = ((3 : ℕ) : ℝ) by norm_num, Real.rpow_natCast]
  norm_num

/-- C2: `irr_settled_option_price` returns
`discountFactor × IRR_0(F, m, N) × B` where `B` is the Black-76 put price
for side `receiver` and the Black-76 call price for side `payer`, `B` is
computed with a numeraire discount factor of exactly `1`, and the annuity
factor is evaluated at the forward `F`, not at the strike `K`. -/
theorem C2_irr_settled_two_stage_scaling (normCdf : ℝ → ℝ)
    (discount_factor F K sigma T m N : ℝ) :
    irr_settled_option_price normCdf discount_factor F K sigma T m N "receiver"
        = discount_factor * IRR_0 F m N * calculate_put_price normCdf F K 1 sigma T
      ∧ irr_settled_option_price normCdf discount_factor F K sigma T m N "payer"
        = discount_factor * IRR_0 F m N * calculate_call_price normCdf F K 1 sigma T := by
  constructor
  · unfold irr_settled_option_price
    rw [if_pos rfl]
  · unfold irr_settled_option_price
    rw [if_neg (by decide)]

/-- C3: `compute_options_payoff_1` returns exactly
`DF·g_0(F) + quad(h_2·receiverPrice, 1e-6, F) + quad(h_2·payerPrice, F, ∞)`
for every market point: the lower cutoff of the receiver-side integral is
exactly `1e-6`, and no other non-zero term contributes to the sum. -/
theorem C3_unrestricted_pricer_decomposition
    (quad : (ℝ → ℝ) → ℝ → ℝ → ℝ) (quad_inf : (ℝ → ℝ) → ℝ → ℝ)
    (normCdf : ℝ → ℝ) (env : MarketEnv)
    (expiry tenor payment_period discount_factor : ℝ) :
    compute_options_payoff_1 quad quad_inf normCdf env expiry tenor payment_period discount_factor
      = discount_factor
          * g_0 (compute_forward_swap_rate expiry tenor env payment_period payment_period)
        + quad (fun x => h_2 x (1 / payment_period) tenor
            * irr_settled_option_price normCdf
                discount_factor
                (compute_forward_swap_rate expiry tenor env payment_period payment_period)
                x
                (SABR_model
                  (compute_forward_swap_rate expiry tenor env payment_period payment_period)
                  x expiry (env.sabr_alpha_interp expiry tenor) (env.sabr_beta_interp expiry tenor)
                  (env.sabr_rho_interp expiry tenor) (env.sabr_nu_interp expiry tenor))
                expiry (1 / payment_period) tenor "receiver")
            1e-6 (compute_forward_swap_rate expiry tenor env payment_period payment_period)
        + quad_inf (fun x => h_2 x (1 / payment_period) tenor
            * irr_settled_option_price normCdf
                discount_factor
                (compute_forward_swap_rate expiry tenor env payment_period payment_period)
                x
                (SABR_model
                  (compute_forward_swap_rate expiry tenor env payment_period payment_period)
                  x expiry (env.sabr_alpha_interp expiry tenor) (env.sabr_beta_interp expiry tenor)
                  (env.sabr_rho_interp expiry tenor) (env.sabr_nu_interp expiry tenor))
                expiry (1 / payment_period) tenor "payer")
            (compute_forward_swap_rate expiry tenor env payment_period payment_period) := by
  unfold compute_options_payoff_1
  ring

/-- C4: `SABR_model` is a two-branch function whose branch condition is
exactly `|F - K| < 1e-12`; inside the band it returns the closed-form ATM
expansion, outside it the general Hagan expansion built from
`z = (nu/alpha)·(F·K)^((1-beta)/2)·ln(F/K)` and
`chi = ln[(√(1-2ρz+z²) + z - ρ)/(1-ρ)]`. -/
theorem C4_SABR_model_branches (F K T alpha beta rho nu : ℝ) :
    SABR_model F K T alpha beta rho nu =
      (if |F - K| < 1e-12 then
        alpha * (1 + ((1 - beta) ^ 2 / 24 * alpha ^ 2 / F ^ (2 - 2 * beta)
          + 0.25 * rho * beta * nu * alpha / F ^ (1 - beta)
          + (2 - 3 * rho ^ 2) / 24 * nu ^ 2) * T) / F ^ (1 - beta)
      else
        alpha * (1 + ((1 - beta) ^ 2 / 24 * (alpha ^ 2 / (F * K) ^ (1 - beta))
          + 0.25 * rho * beta * nu * alpha / (F * K) ^ ((1 - beta) / 2)
          + (2 - 3 * rho ^ 2) / 24 * nu ^ 2) * T) * SABR_z F K alpha beta nu
        / ((F * K) ^ ((1 - beta) / 2)
          * (1 + (1 - beta) ^ 2 / 24 * Real.log (F / K) ^ 2
            + (1 - beta) ^ 4 / 1920 * Real.log (F / K) ^ 4)
          * SABR_chi (SABR_z F K alpha beta nu) rho))
      ∧ SABR_z F K alpha beta nu
        = nu / alpha * (F * K) ^ ((1 - beta) / 2) * Real.log (F / K)
      ∧ SABR_chi (SABR_z F K alpha beta nu) rho
        = Real.log ((Real.sqrt (1 - 2 * rho * SABR_z F K alpha beta nu
              + SABR_z F K alpha beta nu ^ 2)
            + SABR_z F K alpha beta nu - rho) / (1 - rho)) := by
  refine ⟨?_, ?_, ?_⟩
  · unfold SABR_model
    split <;> ring
  · unfold SABR_z
    rw [show 0.5 * (1 - beta) = (1 - beta) / 2 by ring]
  · unfold SABR_chi
    rw [Real.sqrt_eq_rpow, show ((1 : ℝ) / 2) = (0.5 : ℝ) by norm_num,
      show SABR_z F K alpha beta nu ^ 2
        = SABR_z F K alpha beta nu * SABR_z F K alpha beta nu by ring]

/-- C5, counterexample: at `K = m = N = 1`, the `h_2` combination with the
linear payoff `g(K) = K` evaluates to `2`, while the claimed collapsed form
`-IRR_2/IRR_0² + 2·IRR_1²/IRR_0³` evaluates to `0`. -/
theorem C5_linear_payoff_weight_counterexample :
    h_2_with (fun x => x) (fun _ => 1) (fun _ => 0) 1 1 1
      ≠ (-(IRR_2 1 1 1)) / IRR_0 1 1 1 ^ 2 + 2 * IRR_1 1 1 1 ^ 2 / IRR_0 1 1 1 ^ 3 := by
  unfold h_2_with
  rw [IRR_0_one_eval, IRR_1_one_eval, IRR_2_one_eval]
  norm_num

/-- C5, amended: with the linear payoff `g(K) = K` the replication weight
collapses exactly to `-2·IRR_1/IRR_0² + K·(-IRR_2/IRR_0² + 2·IRR_1²/IRR_0³)`;
the claimed expression is the `g ≡ 1` instance, missing the factor `K` and
the `-2·IRR_1/IRR_0²` cross term. -/
theorem C5_linear_payoff_weight_amended (K m N : ℝ)
    (hK : 0 < K) (hm : 0 < m) (hN : 0 < N) :
    h_2_with (fun x => x) (fun _ => 1) (fun _ => 0) K m N
      = (-2) * IRR_1 K m N / IRR_0 K m N ^ 2
        + K * ((-(IRR_2 K m N)) / IRR_0 K m N ^ 2
          + 2 * IRR_1 K m N ^ 2 / IRR_0 K m N ^ 3) := by
  unfold h_2_with
  ring

theorem C5_linear_payoff_weight_amended_witness :
    (0 : ℝ) < 1 ∧
      h_2_with (fun x => x) (fun _ => 1) (fun _ => 0) 1 1 1
        = (-2) * IRR_1 1 1 1 / IRR_0 1 1 1 ^ 2
          + 1 * ((-(IRR_2 1 1 1)) / IRR_0 1 1 1 ^ 2
            + 2 * IRR_1 1 1 1 ^ 2 / IRR_0 1 1 1 ^ 3) :=
  ⟨by norm_num,
    C5_linear_payoff_weight_amended 1 1 1 (by norm_num) (by norm_num) (by norm_num)⟩

/-- C1 (code bug): at a concrete market point with a flat curve and a
probe integrator that reports the lower endpoint it was handed, the
implemented floored-payoff pricer and the spec's formula (integration
starting at the floor `L = 0.0016`) differ by exactly `F - L`: the code
passes the forward `F = 0.05`, not the floor `L`, as the lower limit of
the convexity integral. -/
theorem C1_floored_pricer_integrates_from_forward_not_floor :
    compute_options_payoff_2 (fun _ a => a) (fun _ => 1 / 2) flatEnv 0.0016 5 10 10 1
      - compute_options_payoff_2_spec (fun _ a => a) (fun _ => 1 / 2) flatEnv 0.0016 5 10 10 1
      = 0.05 - 0.0016 := by
  unfold compute_options_payoff_2 compute_options_payoff_2_spec
  simp only []
  rw [flat_forward_swap_rate]
  ring

/-- C6: put-call parity of the annuity-settled pricer: for a cumulative
distribution function satisfying `Φ(x) + Φ(-x) = 1`,
`payer - receiver = DF·IRR_0(F, m, N)·(F - K)` exactly. -/
theorem C6_put_call_parity (normCdf : ℝ → ℝ)
    (hcdf : ∀ x, normCdf x + normCdf (-x) = 1)
    (discount_factor F K sigma T m N : ℝ)
    (hF : 0 < F) (hK : 0 < K) (hsigma : 0 < sigma) (hT : 0 < T)
    (hm : 0 < m) (hN : 0 < N) :
    irr_settled_option_price normCdf discount_factor F K sigma T m N "payer"
      - irr_settled_option_price normCdf discount_factor F K sigma T m N "receiver"
      = discount_factor * IRR_0 F m N * (F - K) := by
  have h1 : normCdf (-(calculate_d1 F K sigma T)) = 1 - normCdf (calculate_d1 F K sigma T) := by
    have := hcdf (calculate_d1 F K sigma T); linarith
  have h2 : normCdf (-(calculate_d2 F K sigma T)) = 1 - normCdf (calculate_d2 F K sigma T) := by
    have := hcdf (calculate_d2 F K sigma T); linarith
  unfold irr_settled_option_price
  rw [if_neg (by decide), if_pos rfl]
  unfold calculate_call_price calculate_put_price
  rw [h1, h2]
  ring

theorem C6_put_call_parity_witness :
    (0 : ℝ) < 1 ∧
      irr_settled_option_price (fun _ => 1 / 2) 1 1 1 1 1 1 1 "payer"
        - irr_settled_option_price (fun _ => 1 / 2) 1 1 1 1 1 1 1 "receiver"
        = 1 * IRR_0 1 1 1 * (1 - 1) :=
  ⟨by norm_num,
    C6_put_call_parity (fun _ => 1 / 2) (fun x => by norm_num) 1 1 1 1 1 1 1
      (by norm_num) (by norm_num) (by norm_num) (by norm_num) (by norm_num) (by norm_num)⟩

/-- C9: `irr_settled_option_price` performs no validation of its side
selector: any `swaption_type` other than the exact string `"receiver"`
falls through to the payer (Black-76 call) branch, and no error path
exists. -/
theorem C9_side_selector_fallthrough (normCdf : ℝ → ℝ)
    (discount_factor F K sigma T m N : ℝ) (swaption_type : String)
    (h : swaption_type ≠ "receiver") :
    irr_settled_option_price normCdf discount_factor F K sigma T m N swaption_type
      = discount_factor * IRR_0 F m N * calculate_call_price normCdf F K 1 sigma T := by
  unfold irr_settled_option_price
  rw [if_neg h]

theorem C9_side_selector_fallthrough_witness :
    ("Receiver" : String) ≠ "receiver" ∧
      irr_settled_option_price (fun _ => 1 / 2) 1 1 1 1 1 1 1 "Receiver"
        = 1 * IRR_0 1 1 1 * calculate_call_price (fun _ => 1 / 2) 1 1 1 1 1 :=
  ⟨by decide,
    C9_side_selector_fallthrough (fun _ => 1 / 2) 1 1 1 1 1 1 1 "Receiver" (by decide)⟩

/-- C10: within the at-the-money band the SABR result does not depend on
the strike: for any two strikes within `1e-12` of `F`, `SABR_model`
returns the same value, because the ATM branch reads only `F`. -/
theorem C10_atm_band_strike_independent (F K1 K2 T alpha beta rho nu : ℝ)
    (h1 : |F - K1| < 1e-12) (h2 : |F - K2| < 1e-12) :
    SABR_model F K1 T alpha beta rho nu = SABR_model F K2 T alpha beta rho nu := by
  unfold SABR_model
  rw [if_pos h1, if_pos h2]

theorem C10_atm_band_strike_independent_witness :
    |(1 : ℝ) - 1| < 1e-12 ∧
      SABR_model 1 1 5 0.3 0.5 0 0.4 = SABR_model 1 1 5 0.3 0.5 0 0.4 :=
  ⟨by norm_num,
    C10_atm_band_strike_independent 1 1 1 5 0.3 0.5 0 0.4 (by norm_num) (by norm_num)⟩

lemma hasDerivAt_IRR_0 (m N K : ℝ) (hK : 0 < K) (hm : 0 < m) :
    HasDerivAt (fun k => IRR_0 k m N) (IRR_1 K m N) K := by
  have hB : 0 < 1 + K / m := by positivity
  have hP : 0 < (1 + K / m) ^ (m * N) := Real.rpow_pos_of_pos hB _
  have hbase : HasDerivAt (fun k : ℝ => 1 + k / m) (1 / m) K :=
    ((hasDerivAt_id K).div_const m).const_add 1
  have hpow : HasDerivAt (fun k : ℝ => (1 + k / m) ^ (m * N))
      (1 / m * (m * N) * (1 + K / m) ^ (m * N - 1)) K :=
    hbase.rpow_const (Or.inl hB.ne')
  have hfrac : HasDerivAt (fun k : ℝ => 1 / (1 + k / m) ^ (m * N))
      ((0 * ((1 + K / m) ^ (m * N))
          - 1 * (1 / m * (m * N) * (1 + K / m) ^ (m * N - 1)))
        / ((1 + K / m) ^ (m * N)) ^ 2) K :=
    (hasDerivAt_const K 1).div hpow hP.ne'
  have hsub := (hasDerivAt_const K (1 : ℝ)).sub hfrac
  have hone : HasDerivAt (fun k : ℝ => 1 / k) ((0 * K - 1 * 1) / K ^ 2) K :=
    (hasDerivAt_const K 1).div (hasDerivAt_id K) hK.ne'
  have hmul := hone.mul hsub
  have hval : (0 * K - 1 * 1) / K ^ 2 * (1 - 1 / (1 + K / m) ^ (m * N))
      + 1 / K * (0 - (0 * ((1 + K / m) ^ (m * N))
          - 1 * (1 / m * (m * N) * (1 + K / m) ^ (m * N - 1)))
        / ((1 + K / m) ^ (m * N)) ^ 2)
      = IRR_1 K m N := by
    unfold IRR_1 IRR_0
    rw [Real.rpow_sub hB, Real.rpow_one, Real.rpow_add hB (N * m) 1, Real.rpow_one,
      mul_comm N m]
    field_simp
    ring
  exact hval ▸ hmul

lemma hasDerivAt_IRR_1 (m N K : ℝ) (hK : 0 < K) (hm : 0 < m) :
    HasDerivAt (fun k => IRR_1 k m N) (IRR_2 K m N) K := by
  have hB : 0 < 1 + K / m := by positivity
  have hP : 0 < (1 + K / m) ^ (m * N) := Real.rpow_pos_of_pos hB _
  have hQ : 0 < (1 + K / m) ^ (N * m + 1) := Real.rpow_pos_of_pos hB _
  have hbase : HasDerivAt (fun k : ℝ => 1 + k / m) (1 / m) K :=
    ((hasDerivAt_id K).div_const m).const_add 1
  have hneg : HasDerivAt (fun k : ℝ => (-1) / k) ((0 * K - (-1) * 1) / K ^ 2) K :=
    (hasDerivAt_const K (-1)).div (hasDerivAt_id K) hK.ne'
  have hI0 : HasDerivAt (fun k => IRR_0 k m N) (IRR_1 K m N) K :=
    hasDerivAt_IRR_0 m N K hK hm
  have hterm1 := hneg.mul hI0
  have hkm : HasDerivAt (fun k : ℝ => k * m) (1 * m) K := (hasDerivAt_id K).mul_const m
  have hrecip : HasDerivAt (fun k : ℝ => 1 / (k * m))
      ((0 * (K * m) - 1 * (1 * m)) / (K * m) ^ 2) K :=
    (hasDerivAt_const K 1).div hkm (mul_pos hK hm).ne'
  have hnum := (hrecip.mul_const N).mul_const m
  have hden : HasDerivAt (fun k : ℝ => (1 + k / m) ^ (N * m + 1))
      (1 / m * (N * m + 1) * (1 + K / m) ^ (N * m + 1 - 1)) K :=
    hbase.rpow_const (Or.inl hB.ne')
  have hterm2 := hnum.div hden hQ.ne'
  have hsum := hterm1.add hterm2
  have hval : ((0 * K - (-1) * 1) / K ^ 2 * IRR_0 K m N + (-1) / K * IRR_1 K m N)
      + (((0 * (K * m) - 1 * (1 * m)) / (K * m) ^ 2 * N * m)
            * ((1 + K / m) ^ (N * m + 1))
          - (1 / (K * m) * N * m)
            * (1 / m * (N * m + 1) * (1 + K / m) ^ (N * m + 1 - 1)))
        / ((1 + K / m) ^ (N * m + 1)) ^ 2
      = IRR_2 K m N := by
    unfold IRR_2 IRR_1 IRR_0
    rw [show (N * m + 1 - 1 : ℝ) = m * N from by ring,
      Real.rpow_add hB (N * m) 1, Real.rpow_one,
      Real.rpow_add hB (N * m) 2, Real.rpow_two,
      mul_comm N m]
    field_simp
    ring
  exact hval ▸ hsum

/-- C7: `IRR_1` is the exact first derivative of `K ↦ IRR_0(K, m, N)` and
`IRR_2` the exact second derivative (the derivative of `IRR_1`), in real
arithmetic; moreover the implemented formulas are recursive, `IRR_1` being
expressed via `IRR_0` and `IRR_2` via `IRR_1`. -/
theorem C7_IRR_exact_derivatives (K m N : ℝ) (hK : 0 < K) (hm : 0 < m) (hN : 0 < N) :
    HasDerivAt (fun k => IRR_0 k m N) (IRR_1 K m N) K
      ∧ HasDerivAt (fun k => IRR_1 k m N) (IRR_2 K m N) K
      ∧ IRR_1 K m N
        = (-1) / K * IRR_0 K m N + 1 / (K * m) * N * m / (1 + K / m) ^ (N * m + 1)
      ∧ IRR_2 K m N
        = (-2) / K * IRR_1 K m N
          - 1 / (K * m * m) * (N * m) * (N * m + 1) / (1 + K / m) ^ (N * m + 2) :=
  ⟨hasDerivAt_IRR_0 m N K hK hm, hasDerivAt_IRR_1 m N K hK hm, rfl, rfl⟩

theorem C7_IRR_exact_derivatives_witness :
    (0 : ℝ) < 1 ∧
      (HasDerivAt (fun k => IRR_0 k 1 1) (IRR_1 1 1 1) 1
        ∧ HasDerivAt (fun k => IRR_1 k 1 1) (IRR_2 1 1 1) 1
        ∧ IRR_1 1 1 1
          = (-1) / 1 * IRR_0 1 1 1 + 1 / (1 * 1) * 1 * 1 / (1 + 1 / 1) ^ ((1 : ℝ) * 1 + 1)
        ∧ IRR_2 1 1 1
          = (-2) / 1 * IRR_1 1 1 1
            - 1 / (1 * 1 * 1) * (1 * 1) * ((1 : ℝ) * 1 + 1) / (1 + 1 / 1) ^ ((1 : ℝ) * 1 + 2)) :=
  ⟨by norm_num, C7_IRR_exact_derivatives 1 1 1 (by norm_num) (by norm_num) (by norm_num)⟩

lemma hasDerivAt_IRR_0_numerator_at_zero (m N : ℝ) (hm : 0 < m) :
    HasDerivAt (fun k : ℝ => 1 - 1 / (1 + k / m) ^ (m * N)) N 0 := by
  have hB : (0 : ℝ) < 1 + 0 / m := by norm_num
  have hbase : HasDerivAt (fun k : ℝ => 1 + k / m) (1 / m) 0 :=
    ((hasDerivAt_id 0).div_const m).const_add 1
  have hpow : HasDerivAt (fun k : ℝ => (1 + k / m) ^ (m * N))
      (1 / m * (m * N) * (1 + 0 / m) ^ (m * N - 1)) 0 :=
    hbase.rpow_const (Or.inl hB.ne')
  have hP : 0 < (1 + 0 / m) ^ (m * N) := Real.rpow_pos_of_pos hB _
  have hfrac : HasDerivAt (fun k : ℝ => 1 / (1 + k / m) ^ (m * N))
      ((0 * ((1 + 0 / m) ^ (m * N))
          - 1 * (1 / m * (m * N) * (1 + 0 / m) ^ (m * N - 1)))
        / ((1 + 0 / m) ^ (m * N)) ^ 2) 0 :=
    (hasDerivAt_const 0 1).div hpow hP.ne'
  have hsub := (hasDerivAt_const 0 (1 : ℝ)).sub hfrac
  have hval : (0 : ℝ) - (0 * ((1 + 0 / m) ^ (m * N))
        - 1 * (1 / m * (m * N) * (1 + 0 / m) ^ (m * N - 1)))
      / ((1 + 0 / m) ^ (m * N)) ^ 2 = N := by
    rw [show (1 : ℝ) + 0 / m = 1 by norm_num, Real.one_rpow, Real.one_rpow]
    field_simp
  rw [hval] at hsub
  exact hsub

/-- C8: for every `m > 0` and `N > 0`, the annuity value `IRR_0(K, m, N)`
tends to `N` as `K` tends to `0` from above. -/
theorem C8_IRR_0_tendsto_N_at_zero (m N : ℝ) (hm : 0 < m) (hN : 0 < N) :
    Filter.Tendsto (fun K => IRR_0 K m N) (nhdsWithin 0 (Set.Ioi 0)) (nhds N) := by
  have hder := hasDerivAt_IRR_0_numerator_at_zero m N hm
  have hslope := hasDerivAt_iff_tendsto_slope.mp hder
  have hmono : nhdsWithin (0 : ℝ) (Set.Ioi 0) ≤ nhdsWithin (0 : ℝ) {(0 : ℝ)}ᶜ :=
    nhdsWithin_mono 0 (fun x hx => Set.mem_compl_singleton_iff.mpr (ne_of_gt hx))
  refine Filter.Tendsto.congr (fun k => ?_) (hslope.mono_left hmono)
  rw [slope_def_field]
  have hf0 : (1 : ℝ) - 1 / (1 + 0 / m) ^ (m * N) = 0 := by
    rw [show (1 : ℝ) + 0 / m = 1 by norm_num, Real.one_rpow]
    norm_num
  show ((1 - 1 / (1 + k / m) ^ (m * N)) - (1 - 1 / (1 + 0 / m) ^ (m * N))) / (k - 0)
      = IRR_0 k m N
  rw [hf0, sub_zero, sub_zero]
  unfold IRR_0
  rw [one_div_mul_eq_div]

theorem C8_IRR_0_tendsto_N_at_zero_witness :
    (0 : ℝ) < 1 ∧
      Filter.Tendsto (fun K => IRR_0 K 1 1) (nhdsWithin 0 (Set.Ioi 0)) (nhds 1) :=
  ⟨by norm_num, C8_IRR_0_tendsto_N_at_zero 1 1 (by norm_num) (by norm_num)⟩
